import Mathlib

/-!
# Verification of the cycle-reminder-api recurrence engine

Shallow embedding of the recurrence/offset calculation engine and the
due-reminder processing step of the `cycle-reminder-api` repository.

Time is modelled as milliseconds since the Unix epoch (`Int`).  The source
manipulates JavaScript `Date` objects with the local-time mutators
`setHours`/`setDate`/`getDay`; we model a fixed-offset calendar (no DST), under
which `setHours(getHours()+h)` adds exactly `h` hours of milliseconds,
`setDate(getDate()+1)` adds exactly one day, and `setHours(H, M, 0, 0)` moves
to the start of the current day plus `H` hours and `M` minutes.  An
unparseable `startTime` string (JS `NaN` date) is modelled as `Option.none`,
as is a missing or invalid `nextNotificationTime` (Firestore timestamp whose
`toDate` is absent or invalid).

The repository ships two revisions of the scheduler and of the reminders
router.  The first revision (offset-free: `calculateNextOccurrence`,
`calculateNextOccurrenceAfterSend`, the defensive-pause and missed-log-trim
blocks of `checkAndSendReminders`) and the second, offset-aware revision
(`calculateNextNotificationInfo`, `calculateNextNotificationAfterSend`, the
later `checkAndSendReminders`) are both embedded below, with `V1` marking the
first revision where names collide.
-/

namespace CycleReminder

/-! ## Calendar model (fixed-offset, no DST) -/

def msPerMinute : Int := 60 * 1000
def msPerHour : Int := 60 * 60 * 1000
def msPerDay : Int := 24 * 60 * 60 * 1000

/-- Index of the civil day containing instant `t` (floor division). -/
def dayIndex (t : Int) : Int := t.fdiv msPerDay

/-- Midnight of the civil day containing `t`. -/
def dayStart (t : Int) : Int := dayIndex t * msPerDay

/-- JS `d.setHours(h, m, 0, 0)`: same civil day, time-of-day `h:m:00.000`. -/
def setHM (t h m : Int) : Int := dayStart t + h * msPerHour + m * msPerMinute

/-- JS `d.getHours()` under a fixed-offset timezone. -/
def getHours (t : Int) : Int := (t - dayStart t).fdiv msPerHour

/-- JS `d.getMinutes()` under a fixed-offset timezone. -/
def getMinutes (t : Int) : Int :=
  (t - dayStart t - getHours t * msPerHour).fdiv msPerMinute

/-- JS `d.setDate(d.getDate() + n)` under a fixed-offset timezone. -/
def addDays (t n : Int) : Int := t + n * msPerDay

/-- JS `d.getDay()`: 0 = Sunday … 6 = Saturday.  The epoch day
(1970-01-01) was a Thursday, weekday number 4. -/
def getDay (t : Int) : Int := (dayIndex t + 4).emod 7

/-! ## Data model (`src/types.ts`) -/

inductive Weekday
  | sunday | monday | tuesday | wednesday | thursday | friday | saturday
deriving DecidableEq

/-- The `dayMap` of the source: weekday name to JS weekday number. -/
def dayNumber : Weekday → Int
  | .sunday => 0
  | .monday => 1
  | .tuesday => 2
  | .wednesday => 3
  | .thursday => 4
  | .friday => 5
  | .saturday => 6

inductive RecurrenceRule
  | none
  | daily
  | weekly (days : List Weekday)
  | interval (hours : Int)
deriving DecidableEq

inductive Status
  | active | paused | processing
deriving DecidableEq

/-- A reminder document.  `startTime` is the parsed anchor (`Option.none`
models a string on which `new Date(...)` yields an invalid date);
`nextNotificationTime` is the parsed stored timestamp (`Option.none` models a
missing or invalid field). -/
structure Reminder where
  serverId : String
  message : String
  channel : String
  channelId : String
  startTime : Option Int
  recurrence : RecurrenceRule
  status : Status
  nextNotificationTime : Option Int
  notificationOffsets : Option (List Int)
  nextOffsetIndex : Option Nat
deriving DecidableEq

structure MissedNotification where
  serverId : String
  reminderMessage : String
  missedAt : Option Int
  channelName : String
  acknowledged : Bool
deriving DecidableEq

/-! ## Occurrence Calculator, offset-aware revision
(`routes/reminders.ts`, `calculateNextNotificationInfo`) -/

/-- The `while (nextDate <= baseTime) nextDate.setHours(getHours()+hours)`
loop of the `interval` case, with explicit fuel: the source loop has no bound,
so `Option.none` here means the loop has not exited within `fuel` iterations
(for non-positive steps it never exits; see `intervalLoop_behavior`). -/
def intervalLoop (step base : Int) : Nat → Int → Option Int
  | 0, t => if t ≤ base then Option.none else some t
  | n + 1, t => if t ≤ base then intervalLoop step base n (t + step) else some t

/-- The 7-iteration weekday scan shared by the `weekly` cases: starting at
`d`, step one day at a time looking for a weekday in `targets`. -/
def weeklyScan (targets : List Int) : Nat → Int → Option Int
  | 0, _ => Option.none
  | n + 1, d => if getDay d ∈ targets then some d else weeklyScan targets n (addDays d 1)

/-- The `weekly` case of `calculateNextNotificationInfo`: empty day set gives
no occurrence; otherwise scan from `max(baseTime, startDate)` with
time-of-day fixed to the anchor's, advanced one day if not strictly after
`baseTime`. -/
def weeklyNext (days : List Weekday) (startDate baseTime : Int) : Option Int :=
  if days = [] then Option.none
  else
    let base := if baseTime > startDate then baseTime else startDate
    let d0 := setHM base (getHours startDate) (getMinutes startDate)
    let d1 := if d0 ≤ baseTime then addDays d0 1 else d0
    weeklyScan (days.map dayNumber) 7 d1

/-- The offset-application loop of `calculateNextNotificationInfo`: the first
offset (scanning in stored order) whose notification instant is strictly
after `baseTime` wins, paired with its index. -/
def pickOffset (cycle baseTime : Int) : List Int → Nat → Option (Int × Nat)
  | [], _ => Option.none
  | o :: rest, i =>
    let notificationTime := cycle - o * msPerMinute
    if notificationTime > baseTime then some (notificationTime, i)
    else pickOffset cycle baseTime rest (i + 1)

/-- `calculateNextNotificationInfo` (offset-aware revision of
`routes/reminders.ts`), the spec's `computeInitial`.  The outer `Option` is a
modelling artifact: `Option.none` means the interval loop did not finish
within `fuel` iterations (divergence in the source); `some Option.none` is
the source's `{ nextNotificationTime: null, nextOffsetIndex: null }`. -/
def calculateNextNotificationInfo (fuel : Nat) (r : Reminder) (baseTime : Int) :
    Option (Option (Int × Nat)) :=
  match r.startTime with
  | Option.none => some Option.none
  | some startDate =>
    let nextCycleTime? : Option (Option Int) :=
      match r.recurrence with
      | .none => some (if startDate ≥ baseTime then some startDate else Option.none)
      | .daily =>
        let base := if baseTime > startDate then baseTime else startDate
        let d := setHM base (getHours startDate) (getMinutes startDate)
        some (some (if d ≤ baseTime then addDays d 1 else d))
      | .interval hours =>
        (intervalLoop (hours * msPerHour) baseTime fuel startDate).map some
      | .weekly days => some (weeklyNext days startDate baseTime)
    match nextCycleTime? with
    | Option.none => Option.none
    | some Option.none => some Option.none
    | some (some cycle) =>
      some (pickOffset cycle baseTime (r.notificationOffsets.getD [0]) 0)

/-! ## Occurrence Calculator, after-send (offset-aware revision of
`scheduler.ts`, `calculateNextNotificationAfterSend`) -/

/-- `calculateNextNotificationAfterSend`: within-cycle offset advance, or
cross-cycle advance with the first offset and index 0.  `Option.none` is the
source's `{ nextNotificationTime: null, nextOffsetIndex: null }` (also used
for the degenerate out-of-range-index and missing-timestamp corners, where
the source would produce an invalid date or throw). -/
def calculateNextNotificationAfterSend (r : Reminder) : Option (Int × Nat) := do
  let startDate ← r.startTime
  let stored ← r.nextNotificationTime
  let offsets := r.notificationOffsets.getD [0]
  let currentOffsetIndex := r.nextOffsetIndex.getD 0
  let currentOffset ← offsets.get? currentOffsetIndex
  let lastCycleTime := stored + currentOffset * msPerMinute
  match offsets.get? (currentOffsetIndex + 1) with
  | some nextOffset =>
    some (lastCycleTime - nextOffset * msPerMinute, currentOffsetIndex + 1)
  | Option.none =>
    let nextCycleTime? : Option Int :=
      match r.recurrence with
      | .none => Option.none
      | .daily =>
        some (setHM (addDays lastCycleTime 1) (getHours startDate) (getMinutes startDate))
      | .interval hours => some (lastCycleTime + hours * msPerHour)
      | .weekly days =>
        if days = [] then Option.none
        else
          weeklyScan (days.map dayNumber) 7
            (setHM (addDays lastCycleTime 1) (getHours startDate) (getMinutes startDate))
    match nextCycleTime? with
    | Option.none => Option.none
    | some nextCycleTime => do
      let firstOffset ← offsets.get? 0
      some (nextCycleTime - firstOffset * msPerMinute, 0)

/-! ## Occurrence Calculator, first revision
(`scheduler.ts` V1, `calculateNextOccurrenceAfterSend`).  The V1
`RecurrenceRule` has no `daily` variant; a `daily` value falls through the
switch to the trailing `return null`. -/

def calculateNextOccurrenceAfterSend (r : Reminder) (lastNotificationTime : Int) :
    Option Int :=
  match r.startTime with
  | Option.none => Option.none
  | some startDate =>
    match r.recurrence with
    | .none => Option.none
    | .daily => Option.none
    | .interval hours => some (lastNotificationTime + hours * msPerHour)
    | .weekly days =>
      if days = [] then Option.none
      else
        weeklyScan (days.map dayNumber) 7
          (setHM (addDays lastNotificationTime 1) (getHours startDate) (getMinutes startDate))

/-! ## Due-Reminder Processor, per-reminder step

`checkAndSendReminders` maps over the due snapshot (reminders with
`status == 'active'` and `nextNotificationTime <= correctedNow`) and, per
document, dispatches or records a miss and then writes the next state.  We
embed the per-document handler as a trace of storage/gateway actions. -/

def GRACE_PERIOD : Int := 10 * 60 * 1000

/-- A single field assignment inside a `doc.ref.update({...})` call. -/
inductive FieldWrite
  | statusW (s : Status)
  | nextTimeW (t : Option Int)
  | nextIndexW (i : Option Nat)
  | startTimeW (t : Int)
deriving DecidableEq

/-- An observable action of the per-reminder handler: a Dispatch-Gateway
send, a MissedNotification insertion, the V1 per-server missed-log trim, or a
document update. -/
inductive Action
  | dispatch (r : Reminder)
  | recordMissed (m : MissedNotification)
  | trimMissed (serverId : String)
  | update (ws : List FieldWrite)
deriving DecidableEq

/-- The MissedNotification record built by the processor's miss branch. -/
def mkMissed (r : Reminder) : MissedNotification :=
  { serverId := r.serverId
    reminderMessage := r.message
    missedAt := r.nextNotificationTime
    channelName := r.channel
    acknowledged := false }

/-- Per-document handler of the offset-aware `checkAndSendReminders`
revision.  `Option.none` models the uncaught throw of
`(reminder.nextNotificationTime as any).toDate()` on a missing/invalid
timestamp (this revision has no defensive check). -/
def processDueReminder (correctedNow : Int) (r : Reminder) : Option (List Action) := do
  let notificationTime ← r.nextNotificationTime
  let missedBy := correctedNow - notificationTime
  let first : List Action :=
    if missedBy < GRACE_PERIOD then [Action.dispatch r]
    else [Action.recordMissed (mkMissed r)]
  let tail : List Action :=
    match calculateNextNotificationAfterSend r with
    | some (nextTime, nextIndex) =>
      let ws := [FieldWrite.nextTimeW (some nextTime), FieldWrite.nextIndexW (some nextIndex)]
      let ws :=
        match r.recurrence with
        | .interval _ => ws ++ [FieldWrite.startTimeW notificationTime]
        | _ => ws
      [Action.update ws]
    | Option.none =>
      [Action.update
        [FieldWrite.statusW .paused, FieldWrite.nextTimeW Option.none,
         FieldWrite.nextIndexW Option.none]]
  pure (first ++ tail)

/-- Per-document handler of the first `checkAndSendReminders` revision: a
missing or invalid `nextNotificationTime` is defensively paused; the miss
branch additionally trims the server's missed-notification log. -/
def processDueReminderV1 (correctedNow : Int) (r : Reminder) : List Action :=
  match r.nextNotificationTime with
  | Option.none =>
    [Action.update [FieldWrite.statusW .paused, FieldWrite.nextTimeW Option.none]]
  | some notificationTime =>
    let missedBy := correctedNow - notificationTime
    let first : List Action :=
      if missedBy < GRACE_PERIOD then [Action.dispatch r]
      else [Action.recordMissed (mkMissed r), Action.trimMissed r.serverId]
    let tail : List Action :=
      match calculateNextOccurrenceAfterSend r notificationTime with
      | some nextTime => [Action.update [FieldWrite.nextTimeW (some nextTime)]]
      | Option.none =>
        [Action.update [FieldWrite.statusW .paused, FieldWrite.nextTimeW Option.none]]
    first ++ tail

/-- Effect of one field assignment on the stored document.  A written
`startTime` is the ISO string of a valid instant, which parses back to that
instant. -/
def applyFieldWrite (r : Reminder) : FieldWrite → Reminder
  | .statusW s => { r with status := s }
  | .nextTimeW t => { r with nextNotificationTime := t }
  | .nextIndexW i => { r with nextOffsetIndex := i }
  | .startTimeW t => { r with startTime := some t }

def applyAction (r : Reminder) : Action → Reminder
  | .update ws => ws.foldl applyFieldWrite r
  | _ => r

/-- The stored document after a trace of actions. -/
def applyTrace (r : Reminder) (acts : List Action) : Reminder :=
  acts.foldl applyAction r

/-- The spec's invariant: `nextNotificationTime` is null iff `status ==
'paused'`. -/
def pausedIffNull (r : Reminder) : Prop :=
  r.nextNotificationTime = Option.none ↔ r.status = .paused

/-- Does the trace ever write `status = 'processing'`?  (The spec's claim
step.) -/
def writesProcessing (acts : List Action) : Bool :=
  acts.any fun a =>
    match a with
    | .update ws =>
      ws.any fun w =>
        match w with
        | .statusW .processing => true
        | _ => false
    | _ => false

def isDispatch : Action → Bool
  | .dispatch _ => true
  | _ => false

def isRecordMissed : Action → Bool
  | .recordMissed _ => true
  | _ => false

def isTrimMissed : Action → Bool
  | .trimMissed _ => true
  | _ => false

/-- Does the trace write the `startTime` field anywhere? -/
def writesStartTime (acts : List Action) : Bool :=
  acts.any fun a =>
    match a with
    | .update ws =>
      ws.any fun w =>
        match w with
        | .startTimeW _ => true
        | _ => false
    | _ => false

/-! ## Reminders router (offset-aware revision of `routes/reminders.ts`) -/

/-- Offset preprocessing of the POST/PUT handlers:
`(body.notificationOffsets || [0]).filter(n => typeof n === 'number' && n >= 0)
.sort((a,b) => b - a)`, then `[0]` if the result is empty. -/
def coerceOffsets (o : Option (List Int)) : List Int :=
  let l := ((o.getD [0]).filter fun n => 0 ≤ n).insertionSort fun a b => b ≤ a
  if l = [] then [0] else l

/-- The POST `/:serverId` handler's construction of the new reminder
document: offsets coerced, `nextNotificationTime`/`nextOffsetIndex` from
`calculateNextNotificationInfo`, every other field — including `status` —
taken from the request body unchanged.  The outer `Option` is the interval
loop's fuel artifact. -/
def routerPostCreate (fuel : Nat) (body : Reminder) (now : Int) : Option Reminder := do
  let dataWithOffsets := { body with notificationOffsets := some (coerceOffsets body.notificationOffsets) }
  let result ← calculateNextNotificationInfo fuel dataWithOffsets now
  match result with
  | some (t, i) =>
    pure { dataWithOffsets with nextNotificationTime := some t, nextOffsetIndex := some i }
  | Option.none =>
    pure { dataWithOffsets with nextNotificationTime := Option.none, nextOffsetIndex := Option.none }

/-! ## Missed-notification log and the V1 trim
(`scheduler.ts` V1: query the server's records ordered by `missedAt`
descending, delete all beyond the 10 newest). -/

def missedKey (m : MissedNotification) : Int := m.missedAt.getD 0

/-- Newest-first order on missed notifications (the `orderBy('missedAt',
'desc')` of the trim query). -/
def newerFirst (a b : MissedNotification) : Prop := missedKey b ≤ missedKey a

instance : DecidableRel newerFirst := fun a b =>
  inferInstanceAs (Decidable (missedKey b ≤ missedKey a))

instance : IsTotal MissedNotification newerFirst :=
  ⟨fun a b => le_total (missedKey b) (missedKey a)⟩

instance : IsTrans MissedNotification newerFirst :=
  ⟨fun _ _ _ h1 h2 => le_trans h2 h1⟩

/-- The server's missed-notification records, newest first. -/
def serverLogsSorted (logs : List MissedNotification) (sid : String) :
    List MissedNotification :=
  (logs.filter fun m => m.serverId = sid).insertionSort newerFirst

/-- Surviving records of server `sid` after the V1 trim: the deletion loop
removes the trailing `size - 10` documents of the descending-ordered
snapshot, keeping the 10 newest. -/
def trimServerLogs (logs : List MissedNotification) (sid : String) :
    List MissedNotification :=
  let mine := serverLogsSorted logs sid
  if 10 < mine.length then mine.take 10 else mine

/-- V1 miss handling on the missed-notification collection: add the record,
then trim its server's log. -/
def recordMissedAndTrimV1 (logs : List MissedNotification) (m : MissedNotification) :
    List MissedNotification :=
  trimServerLogs (m :: logs) m.serverId

/-- Two sequential calls of `calculateNextNotificationInfo` on the same
reminder with the same frozen `now`; the source function only reads
`reminderData`, so the reminder threaded through both calls comes back
unchanged. -/
def computeInitialTwice (fuel : Nat) (r : Reminder) (now : Int) :
    (Option (Option (Int × Nat)) × Option (Option (Int × Nat))) × Reminder :=
  ((calculateNextNotificationInfo fuel r now, calculateNextNotificationInfo fuel r now), r)

/-- Processor write-back applied between simulated dispatches (the
offset-aware `checkAndSendReminders`: store the computed pair and, for
interval rules, advance the stored anchor to the just-fired notification
time). -/
def applyDispatchState (r : Reminder) (p : Int × Nat) : Reminder :=
  let base := { r with nextNotificationTime := some p.1, nextOffsetIndex := some p.2 }
  match r.recurrence with
  | .interval _ =>
    match r.nextNotificationTime with
    | some t => { base with startTime := some t }
    | Option.none => base
  | _ => base

/-! ## Helper lemmas -/

/-- Any value returned by the interval advancement loop is strictly after the
base instant, lies on the anchor's grid, and is the first grid point to do
so. -/
theorem intervalLoop_some_spec (step base : Int) :
    ∀ (f : Nat) (t x : Int), intervalLoop step base f t = some x →
      base < x ∧ (∃ k : Nat, x = t + k * step) ∧ (x = t ∨ x - step ≤ base) := by
  intro f
  induction f with
  | zero =>
    intro t x h
    rw [intervalLoop] at h
    split at h
    · exact absurd h (by simp)
    · rename_i hgt
      cases h
      exact ⟨by omega, ⟨0, by ring⟩, Or.inl rfl⟩
  | succ n ih =>
    intro t x h
    rw [intervalLoop] at h
    split at h
    · rename_i hle
      obtain ⟨hgt, ⟨k, hk⟩, hmin⟩ := ih (t + step) x h
      refine ⟨hgt, ⟨k + 1, by push_cast; linarith⟩, Or.inr ?_⟩
      rcases hmin with h1 | h2
      · omega
      · exact h2
    · rename_i hgt
      cases h
      exact ⟨by omega, ⟨0, by ring⟩, Or.inl rfl⟩

/-- The interval loop's answer does not change when more fuel is supplied. -/
theorem intervalLoop_mono (step base : Int) :
    ∀ (f f' : Nat), f ≤ f' → ∀ (t x : Int),
      intervalLoop step base f t = some x → intervalLoop step base f' t = some x := by
  intro f
  induction f with
  | zero =>
    intro f' _ t x h
    rw [intervalLoop] at h
    split at h
    · exact absurd h (by simp)
    · cases h
      cases f' with
      | zero => rw [intervalLoop]; simp_all
      | succ m => rw [intervalLoop]; simp_all
  | succ n ih =>
    intro f' hle t x h
    cases f' with
    | zero => omega
    | succ m =>
      rw [intervalLoop] at h ⊢
      split at h
      · rename_i hcond
        rw [if_pos hcond]
        exact ih m (by omega) (t + step) x h
      · rename_i hcond
        rw [if_neg hcond]
        exact h

/-- With a positive step the loop terminates: some fuel suffices. -/
theorem intervalLoop_term (step base : Int) (hs : 0 < step) :
    ∀ t : Int, ∃ f x, intervalLoop step base f t = some x := by
  have H : ∀ n : Nat, ∀ t : Int, (base - t).toNat ≤ n →
      ∃ f x, intervalLoop step base f t = some x := by
    intro n
    induction n with
    | zero =>
      intro t ht
      by_cases hle : t ≤ base
      · refine ⟨1, t + step, ?_⟩
        rw [intervalLoop, if_pos hle, intervalLoop]
        have : ¬ t + step ≤ base := by omega
        rw [if_neg this]
      · exact ⟨0, t, by rw [intervalLoop, if_neg hle]⟩
    | succ n ih =>
      intro t ht
      by_cases hle : t ≤ base
      · obtain ⟨f, x, hf⟩ := ih (t + step) (by omega)
        exact ⟨f + 1, x, by rw [intervalLoop, if_pos hle]; exact hf⟩
      · exact ⟨0, t, by rw [intervalLoop, if_neg hle]⟩
  intro t
  exact H (base - t).toNat t le_rfl

/-- With a non-positive step, a loop started at or before the base never
exits, whatever the fuel: the source loop spins forever. -/
theorem intervalLoop_stuck (step base : Int) (hs : step ≤ 0) :
    ∀ (f : Nat) (t : Int), t ≤ base → intervalLoop step base f t = Option.none := by
  intro f
  induction f with
  | zero => intro t ht; rw [intervalLoop, if_pos ht]
  | succ n ih =>
    intro t ht
    rw [intervalLoop, if_pos ht]
    exact ih (t + step) (by omega)

/-- Shape of a successful offset pick: the returned index addresses the
chosen offset, the returned instant is the cycle time minus that offset, and
it is strictly after the base time. -/
theorem pickOffset_spec :
    ∀ (l : List Int) (i0 : Nat) (cycle base T : Int) (i : Nat),
      pickOffset cycle base l i0 = some (T, i) →
      i0 ≤ i ∧ ∃ off, l.get? (i - i0) = some off ∧
        T = cycle - off * msPerMinute ∧ base < T := by
  intro l
  induction l with
  | nil => intro i0 cycle base T i h; exact absurd h (by simp [pickOffset])
  | cons o rest ih =>
    intro i0 cycle base T i h
    rw [pickOffset] at h
    split at h
    · rename_i hgt
      cases h
      exact ⟨le_rfl, o, by simp, rfl, hgt⟩
    · rename_i hngt
      obtain ⟨hle, off, hget, hT, hbase⟩ := ih (i0 + 1) cycle base T i h
      refine ⟨by omega, off, ?_, hT, hbase⟩
      have : i - i0 = (i - (i0 + 1)) + 1 := by omega
      rw [this]
      simpa using hget

/-- Closed form of the offset-aware per-reminder handler on a reminder whose
stored timestamp parses. -/
theorem processDueReminder_eq (now T : Int) (r : Reminder)
    (h : r.nextNotificationTime = some T) :
    processDueReminder now r = some (
      (if now - T < GRACE_PERIOD then [Action.dispatch r]
       else [Action.recordMissed (mkMissed r)]) ++
      (match calculateNextNotificationAfterSend r with
       | some (nextTime, nextIndex) =>
         [Action.update
           (match r.recurrence with
            | .interval _ =>
              [FieldWrite.nextTimeW (some nextTime), FieldWrite.nextIndexW (some nextIndex),
               FieldWrite.startTimeW T]
            | _ =>
              [FieldWrite.nextTimeW (some nextTime), FieldWrite.nextIndexW (some nextIndex)])]
       | Option.none =>
         [Action.update
           [FieldWrite.statusW .paused, FieldWrite.nextTimeW Option.none,
            FieldWrite.nextIndexW Option.none]])) := by
  rw [processDueReminder, h]
  rfl

/-! ## C2: grace-period classification -/

/-- C2: for every due reminder picked up by the processor, if
`missedBy = correctedNow - nextNotificationTime` is strictly below
`GRACE_PERIOD` the reminder is dispatched; otherwise it is not dispatched and
a `MissedNotification` record carrying the server id, the message text, the
original missed timestamp, the channel name and `acknowledged = false` is
created instead. -/
theorem grace_period_decision (now T : Int) (r : Reminder)
    (h : r.nextNotificationTime = some T) :
    (now - T < GRACE_PERIOD →
      ∃ rest, processDueReminder now r = some (Action.dispatch r :: rest)) ∧
    (GRACE_PERIOD ≤ now - T →
      ∃ rest, processDueReminder now r =
        some (Action.recordMissed
          { serverId := r.serverId, reminderMessage := r.message, missedAt := some T,
            channelName := r.channel, acknowledged := false } :: rest)) := by
  have hc := processDueReminder_eq now T r h
  constructor
  · intro hlt
    rw [if_pos hlt] at hc
    exact ⟨_, hc⟩
  · intro hge
    rw [if_neg (by omega)] at hc
    have hmk : mkMissed r =
        { serverId := r.serverId, reminderMessage := r.message, missedAt := some T,
          channelName := r.channel, acknowledged := false } := by
      rw [mkMissed, h]
    rw [hmk] at hc
    exact ⟨_, hc⟩

def rC2 : Reminder :=
  { serverId := "s", message := "boss", channel := "general", channelId := "cid"
    startTime := some 0, recurrence := .none, status := .active
    nextNotificationTime := some 0, notificationOffsets := some [0]
    nextOffsetIndex := some 0 }

/-- C2 witness: a reminder due at `T = 0` observed at `T + GRACE_PERIOD - 1`
ms dispatches, and observed at `T + GRACE_PERIOD + 1` ms is recorded as
missed. -/
theorem grace_period_decision_witness :
    (∃ rest, processDueReminder 599999 rC2 = some (Action.dispatch rC2 :: rest)) ∧
    (∃ rest, processDueReminder 600001 rC2 =
      some (Action.recordMissed
        { serverId := rC2.serverId, reminderMessage := rC2.message, missedAt := some 0,
          channelName := rC2.channel, acknowledged := false } :: rest)) :=
  ⟨(grace_period_decision 599999 0 rC2 rfl).1 (by decide),
   (grace_period_decision 600001 0 rC2 rfl).2 (by decide)⟩

/-! ## C1: there is no claim transaction -/

def rC1 : Reminder :=
  { serverId := "s", message := "raid", channel := "general", channelId := "cid"
    startTime := some 0, recurrence := .interval 5, status := .active
    nextNotificationTime := some 0, notificationOffsets := some [60, 10, 0]
    nextOffsetIndex := some 0 }

/-- C1 counterexample: a due active reminder is handled by the processor —
a dispatch occurs — yet no write of `status = 'processing'` appears anywhere
in the handler's trace, so the claimed atomic claim step does not exist. -/
theorem claim_transaction_counterexample :
    (processDueReminder 0 rC1).isSome = true ∧
    (processDueReminder 0 rC1).map (fun tr => tr.any isDispatch) = some true ∧
    (processDueReminder 0 rC1).map writesProcessing = some false := by decide

/-- C1 amended: the offset-aware processor performs no claim step at all —
its trace never writes `status = 'processing'` — and a handled active
reminder ends the pass with status `active` (advanced) or `paused`. -/
theorem processor_no_claim_step (now : Int) (r : Reminder) (acts : List Action)
    (hact : r.status = .active) (h : processDueReminder now r = some acts) :
    writesProcessing acts = false ∧
    ((applyTrace r acts).status = .active ∨ (applyTrace r acts).status = .paused) := by
  rcases hnt : r.nextNotificationTime with _ | T
  · rw [processDueReminder, hnt] at h
    exact absurd h (by simp)
  · rw [processDueReminder_eq now T r hnt] at h
    cases h
    rcases hcalc : calculateNextNotificationAfterSend r with _ | ⟨t, i⟩ <;>
      rcases hrec : r.recurrence <;>
      by_cases hm : now - T < GRACE_PERIOD <;>
        simp [hcalc, hrec, hm, writesProcessing, applyTrace, applyAction, applyFieldWrite,
          mkMissed, hact]

/-- C1 amended witness at a concrete due reminder. -/
theorem processor_no_claim_step_witness :
    writesProcessing ((processDueReminder 0 rC1).getD []) = false ∧
    ((applyTrace rC1 ((processDueReminder 0 rC1).getD [])).status = .active ∨
      (applyTrace rC1 ((processDueReminder 0 rC1).getD [])).status = .paused) :=
  processor_no_claim_step 0 rC1 ((processDueReminder 0 rC1).getD []) (by decide) (by decide)

/-! ## C4: anchor (startTime) update policy -/

def rC4 : Reminder :=
  { serverId := "s", message := "raid", channel := "general", channelId := "cid"
    startTime := some (-777), recurrence := .interval 5, status := .active
    nextNotificationTime := some 0, notificationOffsets := some [60, 10, 0]
    nextOffsetIndex := some 0 }

/-- C4 counterexample: an interval reminder advancing **within** its cycle
(offset index 0 → 1 of 3 offsets) still gets its stored anchor `startTime`
overwritten — with the just-fired notification time `0`, not the original
anchor `-777` — contradicting "the stored anchor startTime is unchanged" on
within-cycle advancement. -/
theorem anchor_within_cycle_counterexample :
    processDueReminder 0 rC4 =
      some [Action.dispatch rC4,
        Action.update [FieldWrite.nextTimeW (some 3000000), FieldWrite.nextIndexW (some 1),
          FieldWrite.startTimeW 0]] ∧
    rC4.startTime = some (-777) ∧ ((0 : Int) ≠ -777) := by decide

/-- C4 amended: the processor writes the stored anchor `startTime` for
interval rules on **every** successful advancement — within-cycle included —
setting it to the just-fired notification time (the old
`nextNotificationTime`, not the cycle base); rules other than `interval`
never have their anchor written. -/
theorem anchor_update_policy (now T : Int) (r : Reminder) (acts : List Action)
    (hnt : r.nextNotificationTime = some T) (h : processDueReminder now r = some acts) :
    ((∀ H, r.recurrence ≠ .interval H) → writesStartTime acts = false) ∧
    (∀ H nextTime nextIndex, r.recurrence = .interval H →
      calculateNextNotificationAfterSend r = some (nextTime, nextIndex) →
      Action.update
        [FieldWrite.nextTimeW (some nextTime), FieldWrite.nextIndexW (some nextIndex),
         FieldWrite.startTimeW T] ∈ acts) := by
  rw [processDueReminder_eq now T r hnt] at h
  cases h
  constructor
  · intro hni
    rcases hcalc : calculateNextNotificationAfterSend r with _ | ⟨t, i⟩ <;>
      rcases hrec : r.recurrence <;>
      by_cases hm : now - T < GRACE_PERIOD <;>
        first
          | exact absurd hrec (hni _)
          | simp [hcalc, hrec, hm, writesStartTime]
  · intro H nextTime nextIndex hrec hcalc
    rw [hcalc, hrec]
    by_cases hm : now - T < GRACE_PERIOD <;> simp [hm]

/-- C4 amended witness: concrete interval reminder, within-cycle advance,
anchor written to the fired time; and a concrete daily reminder whose trace
never writes the anchor. -/
theorem anchor_update_policy_witness :
    Action.update
      [FieldWrite.nextTimeW (some 3000000), FieldWrite.nextIndexW (some 1),
       FieldWrite.startTimeW 0] ∈ ((processDueReminder 0 rC4).getD []) ∧
    writesStartTime ((processDueReminder 0 { rC4 with recurrence := .daily }).getD []) = false :=
  ⟨by
    have h := (anchor_update_policy 0 0 rC4 ((processDueReminder 0 rC4).getD [])
      (by decide) (by decide)).2 5 3000000 1 (by decide) (by decide)
    exact h,
   by
    have h := (anchor_update_policy 0 0 { rC4 with recurrence := .daily }
      ((processDueReminder 0 { rC4 with recurrence := .daily }).getD [])
      (by decide) (by decide)).1 (by intro H h; cases h)
    exact h⟩

/-! ## C5: offset ordering across three dispatches -/

/-- An interval reminder with offsets `[60, 10, 0]` at offset index 0. -/
def reminderC5 (A n0 H : Int) : Reminder :=
  { serverId := "s", message := "m", channel := "c", channelId := "cid"
    startTime := some A, recurrence := .interval H, status := .active
    nextNotificationTime := some n0, notificationOffsets := some [60, 10, 0]
    nextOffsetIndex := some 0 }

/-- C5 counterexample: with recurrence `interval(hours = 1)` and offsets
`[60, 10, 0]`, the third `computeAfterDispatch` call rolls over to the next
cycle but returns exactly the time it started from (3600000), so
`nextNotificationTime` does **not** strictly increase on the third call. -/
theorem offset_ordering_counterexample :
    calculateNextNotificationAfterSend (reminderC5 0 0 1) = some (3000000, 1) ∧
    calculateNextNotificationAfterSend
        (applyDispatchState (reminderC5 0 0 1) (3000000, 1)) = some (3600000, 2) ∧
    calculateNextNotificationAfterSend
        (applyDispatchState (applyDispatchState (reminderC5 0 0 1) (3000000, 1))
          (3600000, 2)) = some (3600000, 0) ∧
    ¬ ((3600000 : Int) < 3600000) := by decide

/-- C5 amended: for an interval reminder with offsets `[60, 10, 0]`, three
consecutive `computeAfterDispatch` calls advance the offset index 0 → 1 → 2,
then on the third call roll over to the next cycle with index 0 and the
first (largest) offset applied; `nextNotificationTime` strictly increases on
the first two calls, and on the third exactly when the cycle step exceeds
the first offset — e.g. for `hours ≥ 2` (for `hours = 1` the third call
returns the same instant). -/
theorem offset_ordering_interval (A n0 H : Int) (hH : 2 ≤ H) :
    calculateNextNotificationAfterSend (reminderC5 A n0 H) = some (n0 + 3000000, 1) ∧
    calculateNextNotificationAfterSend
        (applyDispatchState (reminderC5 A n0 H) (n0 + 3000000, 1)) =
      some (n0 + 3600000, 2) ∧
    calculateNextNotificationAfterSend
        (applyDispatchState (applyDispatchState (reminderC5 A n0 H) (n0 + 3000000, 1))
          (n0 + 3600000, 2)) = some (n0 + H * 3600000, 0) ∧
    n0 < n0 + 3000000 ∧ n0 + 3000000 < n0 + 3600000 ∧
    n0 + 3600000 < n0 + H * 3600000 := by
  refine ⟨?_, ?_, ?_, by omega, by omega, by nlinarith⟩
  · simp [reminderC5, calculateNextNotificationAfterSend, msPerMinute]
    omega
  · simp [reminderC5, applyDispatchState, calculateNextNotificationAfterSend, msPerMinute]
    omega
  · simp [reminderC5, applyDispatchState, calculateNextNotificationAfterSend,
      msPerMinute, msPerHour]
    ring

/-- C5 amended witness at `hours = 2`. -/
theorem offset_ordering_interval_witness :
    calculateNextNotificationAfterSend (reminderC5 0 0 2) = some (3000000, 1) ∧
    calculateNextNotificationAfterSend
        (applyDispatchState (reminderC5 0 0 2) (3000000, 1)) = some (3600000, 2) ∧
    calculateNextNotificationAfterSend
        (applyDispatchState (applyDispatchState (reminderC5 0 0 2) (3000000, 1))
          (3600000, 2)) = some (7200000, 0) ∧
    (0 : Int) < 3000000 ∧ (3000000 : Int) < 3600000 ∧ (3600000 : Int) < 7200000 := by
  have h := offset_ordering_interval 0 0 2 (by decide)
  norm_num at h ⊢
  exact h

/-! ## C6: the paused-iff-null invariant -/

def bodyC6 : Reminder :=
  { serverId := "s", message := "m", channel := "c", channelId := "cid"
    startTime := some 0, recurrence := .none, status := .active
    nextNotificationTime := Option.none, notificationOffsets := Option.none
    nextOffsetIndex := Option.none }

/-- The document the POST handler stores for `bodyC6` at `now = 1`. -/
def createdC6 : Reminder := (routerPostCreate 0 bodyC6 1).getD bodyC6

/-- C6 counterexample: creating an `active` one-shot reminder whose
`startTime` is already in the past stores `nextNotificationTime = null` with
`status = 'active'` — the create handler never adjusts the client-sent
status, so "nextNotificationTime is null iff status == paused" fails at
creation. -/
theorem paused_iff_null_create_counterexample :
    routerPostCreate 0 bodyC6 1 = some createdC6 ∧
    createdC6.status = Status.active ∧
    createdC6.nextNotificationTime = Option.none ∧
    ¬ pausedIffNull createdC6 := by
  refine ⟨by decide, by decide, by decide, ?_⟩
  intro hinv
  have : createdC6.status = Status.paused := hinv.mp (by decide)
  exact absurd this (by decide)

/-- C6 amended: the processor's own transitions do preserve the invariant —
both the offset-aware revision (advancement keeps `status = active` with a
non-null time; exhaustion writes `paused` with a null time) and the first
revision (including its defensive pause) — but the create/update handlers
store the client-sent status unchanged next to the computed time, so the
invariant can be violated at the API boundary. -/
theorem paused_iff_null_processor (now : Int) (r : Reminder)
    (hact : r.status = .active) :
    (∀ acts, processDueReminder now r = some acts →
      pausedIffNull (applyTrace r acts)) ∧
    pausedIffNull (applyTrace r (processDueReminderV1 now r)) := by
  constructor
  · intro acts h
    rcases hnt : r.nextNotificationTime with _ | T
    · rw [processDueReminder, hnt] at h
      exact absurd h (by simp)
    · rw [processDueReminder_eq now T r hnt] at h
      cases h
      rcases hcalc : calculateNextNotificationAfterSend r with _ | ⟨t, i⟩ <;>
        rcases hrec : r.recurrence <;>
        by_cases hm : now - T < GRACE_PERIOD <;>
          simp [hcalc, hrec, hm, applyTrace, applyAction, applyFieldWrite,
            pausedIffNull, hact]
  · rw [processDueReminderV1]
    rcases hnt : r.nextNotificationTime with _ | T
    · simp [applyTrace, applyAction, applyFieldWrite, pausedIffNull]
    · rcases hcalc : calculateNextOccurrenceAfterSend r T with _ | t <;>
        by_cases hm : now - T < GRACE_PERIOD <;>
          simp [hcalc, hm, applyTrace, applyAction, applyFieldWrite,
            pausedIffNull, hact]

/-- C6 amended witness at a concrete active due reminder. -/
theorem paused_iff_null_processor_witness :
    pausedIffNull (applyTrace rC2 ((processDueReminder 0 rC2).getD [])) ∧
    pausedIffNull (applyTrace rC2 (processDueReminderV1 0 rC2)) :=
  ⟨(paused_iff_null_processor 0 rC2 (by decide)).1 ((processDueReminder 0 rC2).getD [])
     (by decide),
   (paused_iff_null_processor 0 rC2 (by decide)).2⟩

/-! ## C7: unparseable data policy -/

/-- C7: if `startTime` fails to parse, every occurrence computation yields no
occurrence (the offset-aware initial calculator returns the null pair for
any fuel, and both after-send calculators return null); and a reminder
matched by the due query whose `startTime` is unparseable or whose
`nextNotificationTime` is missing/invalid ends the first-revision
processor's pass defensively paused: `status = 'paused'`,
`nextNotificationTime = null`. -/
theorem bad_data_policy :
    (∀ (fuel : Nat) (r : Reminder) (now : Int), r.startTime = Option.none →
      calculateNextNotificationInfo fuel r now = some Option.none) ∧
    (∀ r : Reminder, r.startTime = Option.none →
      calculateNextNotificationAfterSend r = Option.none) ∧
    (∀ (r : Reminder) (t : Int), r.startTime = Option.none →
      calculateNextOccurrenceAfterSend r t = Option.none) ∧
    (∀ (now : Int) (r : Reminder),
      r.startTime = Option.none ∨ r.nextNotificationTime = Option.none →
      (applyTrace r (processDueReminderV1 now r)).status = .paused ∧
      (applyTrace r (processDueReminderV1 now r)).nextNotificationTime = Option.none) := by
  refine ⟨?_, ?_, ?_, ?_⟩
  · intro fuel r now h
    rw [calculateNextNotificationInfo, h]
  · intro r h
    rw [calculateNextNotificationAfterSend, h]
    rfl
  · intro r t h
    rw [calculateNextOccurrenceAfterSend, h]
  · intro now r hbad
    rw [processDueReminderV1]
    rcases hnt : r.nextNotificationTime with _ | T
    · simp [applyTrace, applyAction, applyFieldWrite]
    · rcases hbad with hst | hst
      · have hcalc : calculateNextOccurrenceAfterSend r T = Option.none := by
          rw [calculateNextOccurrenceAfterSend, hst]
        by_cases hm : now - T < GRACE_PERIOD <;>
          simp [hcalc, hm, applyTrace, applyAction, applyFieldWrite]
      · rw [hst] at hnt
        exact absurd hnt (by simp)

/-- C7 witness: unparseable anchor yields no occurrence everywhere, and the
first-revision processor pauses a due record with a missing timestamp. -/
theorem bad_data_policy_witness :
    calculateNextNotificationInfo 3 { rC2 with startTime := Option.none } 0 =
      some Option.none ∧
    calculateNextNotificationAfterSend { rC2 with startTime := Option.none } =
      Option.none ∧
    calculateNextOccurrenceAfterSend { rC2 with startTime := Option.none } 0 =
      Option.none ∧
    ((applyTrace { rC2 with nextNotificationTime := Option.none }
        (processDueReminderV1 0 { rC2 with nextNotificationTime := Option.none })).status
      = .paused) :=
  ⟨bad_data_policy.1 3 { rC2 with startTime := Option.none } 0 rfl,
   bad_data_policy.2.1 { rC2 with startTime := Option.none } rfl,
   bad_data_policy.2.2.1 { rC2 with startTime := Option.none } 0 rfl,
   (bad_data_policy.2.2.2 0 { rC2 with nextNotificationTime := Option.none }
     (Or.inr rfl)).1⟩

/-! ## C3: interval computeInitial and the anchor grid -/

def rC3 : Reminder :=
  { serverId := "s", message := "m", channel := "c", channelId := "cid"
    startTime := some 0, recurrence := .interval 2, status := .active
    nextNotificationTime := Option.none, notificationOffsets := some [30]
    nextOffsetIndex := Option.none }

/-- C3 counterexample: an interval reminder with anchor `A = 0`, `hours = 2`
and offsets `[30]` evaluated at `now = 3600000` returns `T = 5400000`
(cycle time 7200000 minus the 30-minute offset), and `T - A` is **not** an
integer multiple of 2 hours — the returned notification time is the cycle
time minus the selected offset, not a grid point. -/
theorem interval_multiple_counterexample :
    calculateNextNotificationInfo 5 rC3 3600000 = some (some (5400000, 0)) ∧
    ∀ k : Int, (5400000 : Int) - 0 ≠ k * (2 * msPerHour) := by
  refine ⟨by decide, ?_⟩
  intro k
  have h2 : (2 * msPerHour : Int) = 7200000 := by decide
  rw [h2]
  omega

/-- C3 amended: for an interval reminder with anchor `A` and `hours = H`,
whenever `computeInitial` returns a pair `(T, i)` the internal advancement
loop produced a cycle time `C` with `C > now`, `C - A` a non-negative
integer multiple of `H` hours, and no smaller such multiple after `now`
(`C = A` or `C - H` hours `≤ now`); the returned time is `T = C` minus the
selected offset `offsets[i]` minutes and is itself strictly after `now` (so
the advancement never yields a time ≤ `now`); with the default offsets
`[0]`, `T = C` itself. -/
theorem computeInitial_interval_cycle (fuel : Nat) (r : Reminder)
    (now A H T : Int) (i : Nat)
    (hst : r.startTime = some A) (hrec : r.recurrence = .interval H)
    (hres : calculateNextNotificationInfo fuel r now = some (some (T, i))) :
    ∃ C off, intervalLoop (H * msPerHour) now fuel A = some C ∧
      now < C ∧ (∃ k : Nat, C = A + k * (H * msPerHour)) ∧
      (C = A ∨ C - H * msPerHour ≤ now) ∧
      (r.notificationOffsets.getD [0]).get? i = some off ∧
      T = C - off * msPerMinute ∧ now < T := by
  rcases hl : intervalLoop (H * msPerHour) now fuel A with _ | C
  · rw [calculateNextNotificationInfo, hst, hrec] at hres
    simp [hl] at hres
  · rw [calculateNextNotificationInfo, hst, hrec] at hres
    simp only [hl, Option.map_some'] at hres
    have hpick : pickOffset C now (r.notificationOffsets.getD [0]) 0 = some (T, i) := by
      simpa using hres
    obtain ⟨hgt, ⟨k, hk⟩, hmin⟩ := intervalLoop_some_spec (H * msPerHour) now fuel A C hl
    obtain ⟨_, off, hget, hT, hTT⟩ := pickOffset_spec _ 0 C now T i hpick
    refine ⟨C, off, rfl, hgt, ⟨k, hk⟩, hmin, ?_, hT, hTT⟩
    simpa using hget

/-- C3 amended witness: anchor 0, hours 2, offsets `[30]`, `now` one hour in:
cycle time 7200000 (one 2-hour step from the anchor, minimal above `now`),
returned time 5400000. -/
theorem computeInitial_interval_cycle_witness :
    ∃ C off, intervalLoop (2 * msPerHour) 3600000 5 0 = some C ∧
      3600000 < C ∧ (∃ k : Nat, C = 0 + k * (2 * msPerHour)) ∧
      (C = 0 ∨ C - 2 * msPerHour ≤ 3600000) ∧
      (rC3.notificationOffsets.getD [0]).get? 0 = some off ∧
      (5400000 : Int) = C - off * msPerMinute ∧ (3600000 : Int) < 5400000 :=
  computeInitial_interval_cycle 5 rC3 3600000 0 2 5400000 0 rfl rfl (by decide)

/-! ## C8: missed-notification retention trim -/

def rC8 : Reminder :=
  { serverId := "s", message := "m", channel := "c", channelId := "cid"
    startTime := some 0, recurrence := .none, status := .active
    nextNotificationTime := some 0, notificationOffsets := some [0]
    nextOffsetIndex := some 0 }

/-- C8 counterexample: the offset-aware processor, handling a reminder that
is past the grace period (`now = due + GRACE_PERIOD`), records the
MissedNotification but performs **no** trim of the server missed-notification
log — the retention trim exists only in the first scheduler revision. -/
theorem missed_trim_counterexample :
    processDueReminder 600000 rC8 =
      some [Action.recordMissed (mkMissed rC8),
        Action.update [FieldWrite.statusW .paused, FieldWrite.nextTimeW Option.none,
          FieldWrite.nextIndexW Option.none]] ∧
    ((processDueReminder 600000 rC8).getD []).any isRecordMissed = true ∧
    ((processDueReminder 600000 rC8).getD []).any isTrimMissed = false := by decide

/-- C8 amended: in the **first** scheduler revision, recording a missed
notification and trimming leaves at most 10 records for the server, and
every record it deletes is no newer than any record it keeps (the 10 newest
survive); the offset-aware revision records the miss and does not trim. -/
theorem missed_log_trim (logs : List MissedNotification) (m : MissedNotification) :
    (recordMissedAndTrimV1 logs m).length ≤ 10 ∧
    ∀ x ∈ recordMissedAndTrimV1 logs m,
      ∀ y ∈ serverLogsSorted (m :: logs) m.serverId,
        y ∉ recordMissedAndTrimV1 logs m → missedKey y ≤ missedKey x := by
  unfold recordMissedAndTrimV1 trimServerLogs
  have hsorted : List.Sorted newerFirst (serverLogsSorted (m :: logs) m.serverId) :=
    List.sorted_insertionSort newerFirst _
  by_cases hlen : 10 < (serverLogsSorted (m :: logs) m.serverId).length
  · rw [if_pos hlen]
    constructor
    · simp [List.length_take]
    · intro x hx y hy hyn
      have hy' : y ∈ (serverLogsSorted (m :: logs) m.serverId).drop 10 := by
        conv at hy => rw [← List.take_append_drop 10 (serverLogsSorted (m :: logs) m.serverId)]
        rcases List.mem_append.mp hy with h | h
        · exact absurd h hyn
        · exact h
      have hpairwise : List.Pairwise newerFirst
          ((serverLogsSorted (m :: logs) m.serverId).take 10 ++
            (serverLogsSorted (m :: logs) m.serverId).drop 10) := by
        rw [List.take_append_drop]
        exact hsorted
      exact (List.pairwise_append.mp hpairwise).2.2 x hx y hy'
  · rw [if_neg hlen]
    refine ⟨by omega, ?_⟩
    intro x _ y hy hyn
    exact absurd hy hyn

def mkMN (k : Int) : MissedNotification :=
  { serverId := "s", reminderMessage := "m", missedAt := some k
    channelName := "c", acknowledged := false }

def logsC8 : List MissedNotification :=
  [mkMN 1, mkMN 2, mkMN 3, mkMN 4, mkMN 5, mkMN 6, mkMN 7, mkMN 8, mkMN 9, mkMN 10]

/-- C8 amended witness: with ten existing records (timestamps 1…10) and a new
miss at timestamp 0, the surviving log has at most 10 entries and the
deleted record (timestamp 0) is no newer than a kept one (timestamp 10). -/
theorem missed_log_trim_witness :
    (recordMissedAndTrimV1 logsC8 (mkMN 0)).length ≤ 10 ∧
    missedKey (mkMN 0) ≤ missedKey (mkMN 10) :=
  ⟨(missed_log_trim logsC8 (mkMN 0)).1,
   (missed_log_trim logsC8 (mkMN 0)).2 (mkMN 10) (by decide) (mkMN 0) (by decide) (by decide)⟩

/-! ## C9: determinism / idempotence of computeInitial -/

/-- C9: `computeInitial` is deterministic and idempotent — two sequential
calls with the same reminder and the same frozen `now` return identical
results and hand the reminder back unchanged (the source function only reads
`reminderData`); and the result is independent of the modelling fuel
whenever the internal interval loop finishes. -/
theorem computeInitial_idempotent :
    (∀ (fuel : Nat) (r : Reminder) (now : Int),
      (computeInitialTwice fuel r now).1.1 = (computeInitialTwice fuel r now).1.2 ∧
      (computeInitialTwice fuel r now).2 = r) ∧
    (∀ (f1 f2 : Nat) (r : Reminder) (now : Int) (v1 v2 : Option (Int × Nat)),
      calculateNextNotificationInfo f1 r now = some v1 →
      calculateNextNotificationInfo f2 r now = some v2 → v1 = v2) := by
  refine ⟨fun fuel r now => ⟨rfl, rfl⟩, ?_⟩
  intro f1 f2 r now v1 v2 h1 h2
  rcases hst : r.startTime with _ | A
  · rw [calculateNextNotificationInfo, hst] at h1
    rw [calculateNextNotificationInfo, hst] at h2
    cases h1
    cases h2
    rfl
  · rcases hrec : r.recurrence with _ | _ | days | hours
    · rw [calculateNextNotificationInfo, hst, hrec] at h1 h2
      rw [h1] at h2
      exact Option.some.inj h2
    · rw [calculateNextNotificationInfo, hst, hrec] at h1 h2
      rw [h1] at h2
      exact Option.some.inj h2
    · rw [calculateNextNotificationInfo, hst, hrec] at h1 h2
      rw [h1] at h2
      exact Option.some.inj h2
    · rcases hl1 : intervalLoop (hours * msPerHour) now f1 A with _ | c1
      · rw [calculateNextNotificationInfo, hst, hrec] at h1
        simp [hl1] at h1
      · rcases hl2 : intervalLoop (hours * msPerHour) now f2 A with _ | c2
        · rw [calculateNextNotificationInfo, hst, hrec] at h2
          simp [hl2] at h2
        · have hc : c1 = c2 := by
            rcases le_total f1 f2 with hle | hle
            · have := intervalLoop_mono (hours * msPerHour) now f1 f2 hle A c1 hl1
              rw [this] at hl2
              exact Option.some.inj hl2
            · have := intervalLoop_mono (hours * msPerHour) now f2 f1 hle A c2 hl2
              rw [this] at hl1
              exact (Option.some.inj hl1).symm
          rw [calculateNextNotificationInfo, hst, hrec] at h1
          rw [calculateNextNotificationInfo, hst, hrec] at h2
          simp only [hl1, hl2, Option.map_some', Option.some.injEq] at h1 h2
          rw [← h1, ← h2, hc]

def rC9 : Reminder :=
  { serverId := "s", message := "m", channel := "c", channelId := "cid"
    startTime := some 10, recurrence := .interval 1, status := .active
    nextNotificationTime := Option.none, notificationOffsets := Option.none
    nextOffsetIndex := Option.none }

/-- C9 witness: two calls with different fuels on a concrete reminder agree. -/
theorem computeInitial_idempotent_witness :
    (computeInitialTwice 3 rC9 0).1.1 = (computeInitialTwice 3 rC9 0).1.2 ∧
    (some ((10 : Int), (0 : Nat)) : Option (Int × Nat)) = some (10, 0) :=
  ⟨(computeInitial_idempotent.1 3 rC9 0).1,
   computeInitial_idempotent.2 3 7 rC9 0 (some (10, 0)) (some (10, 0))
     (by decide) (by decide)⟩

/-! ## C10: termination of the interval advancement loop -/

/-- C10: the interval advancement loop of `computeInitial` terminates for a
strictly positive `hours` (some fuel suffices), spins forever when
`hours ≤ 0` and the anchor is not after `now` (no fuel ever suffices — the
source's `while` loop never exits), and the POST handler passes the
recurrence rule — including `hours` — through to the calculator with no
validation. -/
theorem intervalLoop_behavior (A now H : Int) :
    (0 < H → ∃ fuel T, intervalLoop (H * msPerHour) now fuel A = some T) ∧
    (H ≤ 0 → A ≤ now → ∀ fuel : Nat,
      intervalLoop (H * msPerHour) now fuel A = Option.none) ∧
    (∀ (fuel : Nat) (body : Reminder) (now2 : Int) (created : Reminder),
      routerPostCreate fuel body now2 = some created →
      created.recurrence = body.recurrence) := by
  refine ⟨?_, ?_, ?_⟩
  · intro hH
    have hs : (0 : Int) < H * msPerHour :=
      mul_pos hH (by decide : (0 : Int) < msPerHour)
    obtain ⟨f, x, hf⟩ := intervalLoop_term (H * msPerHour) now hs A
    exact ⟨f, x, hf⟩
  · intro hH hA fuel
    refine intervalLoop_stuck (H * msPerHour) now ?_ fuel A hA
    exact mul_nonpos_of_nonpos_of_nonneg hH (by decide)
  · intro fuel body now2 created h
    rw [routerPostCreate] at h
    rcases hinfo : calculateNextNotificationInfo fuel
        { body with notificationOffsets := some (coerceOffsets body.notificationOffsets) }
        now2 with _ | res
    · rw [hinfo] at h
      exact absurd h (by simp)
    · rw [hinfo] at h
      rcases res with _ | ⟨t, i⟩
      · cases Option.some.inj h
        rfl
      · cases Option.some.inj h
        rfl

/-- C10 witness: `hours = 2` terminates from anchor 0 at `now = 5`;
`hours = 0` never exits; the POST handler stores the body's recurrence
unchanged. -/
theorem intervalLoop_behavior_witness :
    (∃ fuel T, intervalLoop (2 * msPerHour) 5 fuel 0 = some T) ∧
    (∀ fuel : Nat, intervalLoop (0 * msPerHour) 5 fuel 0 = Option.none) ∧
    createdC6.recurrence = bodyC6.recurrence :=
  ⟨(intervalLoop_behavior 0 5 2).1 (by decide),
   (intervalLoop_behavior 0 5 0).2.1 (by decide) (by decide),
   (intervalLoop_behavior 0 5 0).2.2 0 bodyC6 1 createdC6 (by decide)⟩

end CycleReminder
